import Mathlib

set_option autoImplicit false

/-!
Verification of the Libparc core against its specification.

The definitions below are shallow embeddings of the C sources:
`parc_AtomicUint8.c`, `parc_KeyValue.c`, `parc_IdentityFile.c` and
`parc_Log.c`.  Machine integers are modelled as `Nat`/`Int` with explicit
reduction modulo `2 ^ 8` where the C type is `uint8_t`; fallible
allocation is modelled by an explicit success flag; the mutex of the
fallback (PARCLibrary_DISABLE_ATOMICS) backend is modelled as an explicit
`mutexLocked` flag threaded through each operation.
-/

namespace Libparc

/-! ## parc_AtomicUint8.c

`struct PARCAtomicUint8` holds a single `uint8_t value`; in the fallback
build (`PARCLibrary_DISABLE_ATOMICS`) it additionally holds a
`pthread_mutex_t mutex`.  The lock-free backend state is just the stored
byte; the fallback backend state carries the mutex flag as well. -/

/-- Fallback-backend state of `struct PARCAtomicUint8`: the stored byte plus
the `pthread_mutex_t mutex` (modelled as a locked/unlocked flag). -/
structure PARCAtomicUint8Mutex where
  value : Nat
  mutexLocked : Bool
  deriving DecidableEq

/-- Lock-free `parcAtomicUint8_GetValue`: `return *instance;`. -/
def parcAtomicUint8_GetValue (value : Nat) : Nat :=
  value

/-- Fallback `parcAtomicUint8_GetValue`: `return instance->value;`
(no lock is taken in the C source for the read). -/
def parcAtomicUint8_GetValue_fallback (s : PARCAtomicUint8Mutex) : Nat :=
  s.value

/-- Lock-free `parcAtomicUint8_AddImpl`:
`return __sync_add_and_fetch(value, addend);` — the stored byte becomes
`(value + addend) mod 2^8` and that new value is returned.
Result: (returned value, new stored byte). -/
def parcAtomicUint8_AddImpl (value addend : Nat) : Nat × Nat :=
  let r := (value + addend) % 256
  (r, r)

/-- Fallback `parcAtomicUint8_AddImpl`: lock the mutex,
`value->value += addend;`, read the result, unlock, return it. -/
def parcAtomicUint8_AddImpl_fallback (s : PARCAtomicUint8Mutex) (addend : Nat) :
    Nat × PARCAtomicUint8Mutex :=
  let locked : PARCAtomicUint8Mutex := { s with mutexLocked := true }
  let updated : PARCAtomicUint8Mutex := { locked with value := (locked.value + addend) % 256 }
  let result := updated.value
  (result, { updated with mutexLocked := false })

/-- Lock-free `parcAtomicUint8_SubtractImpl`:
`return __sync_sub_and_fetch(value, subtrahend);` — unsigned wraparound
subtraction on the stored byte.  Result: (returned value, new stored byte). -/
def parcAtomicUint8_SubtractImpl (value subtrahend : Nat) : Nat × Nat :=
  let r := (value + (256 - subtrahend % 256)) % 256
  (r, r)

/-- Fallback `parcAtomicUint8_SubtractImpl`: lock the mutex,
`value->value -= subtrahend;`, read the result, unlock, return it. -/
def parcAtomicUint8_SubtractImpl_fallback (s : PARCAtomicUint8Mutex) (subtrahend : Nat) :
    Nat × PARCAtomicUint8Mutex :=
  let locked : PARCAtomicUint8Mutex := { s with mutexLocked := true }
  let updated : PARCAtomicUint8Mutex :=
    { locked with value := (locked.value + (256 - subtrahend % 256)) % 256 }
  let result := updated.value
  (result, { updated with mutexLocked := false })

/-- Lock-free `parcAtomicUint8_CompareAndSwapImpl`:
`__sync_bool_compare_and_swap(value, predicate, newValue)` — a single
attempt: if the stored byte equals `predicate` it is replaced by
`newValue` and `true` is returned, otherwise the byte is unchanged and
`false` is returned.  Result: (returned bool, new stored byte). -/
def parcAtomicUint8_CompareAndSwapImpl (value predicate newValue : Nat) : Bool × Nat :=
  if value = predicate then (true, newValue % 256) else (false, value)

/-- Fallback `parcAtomicUint8_CompareAndSwapImpl`: lock the mutex, compare
the stored byte with `predicate`, conditionally store `newValue` and set
the result `true`, unlock, return the result. -/
def parcAtomicUint8_CompareAndSwapImpl_fallback (s : PARCAtomicUint8Mutex)
    (predicate newValue : Nat) : Bool × PARCAtomicUint8Mutex :=
  let locked : PARCAtomicUint8Mutex := { s with mutexLocked := true }
  if locked.value = predicate then
    let updated : PARCAtomicUint8Mutex := { locked with value := newValue % 256 }
    (true, { updated with mutexLocked := false })
  else
    (false, { locked with mutexLocked := false })

/-- Conversion of an integer to C `int8_t` (two's complement, as performed
by the implementation-defined narrowing conversion on common compilers):
take the value modulo `2^8` and map the range `[128, 256)` to `[-128, 0)`. -/
def int8OfInt (z : Int) : Int :=
  let r := z % 256
  if r < 128 then r else r - 256

/-- Embedding of `parcAtomicUint8_Compare`: the C source computes
`int8_t comparison = parcAtomicUint8_GetValue(instance) - parcAtomicUint8_GetValue(other);`
(the `uint8_t` operands are promoted to `int`, subtracted exactly, and the
difference is narrowed to `int8_t`), then returns `-1`, `0`, or `1` by the
sign of `comparison`. -/
def parcAtomicUint8_Compare (instanceValue otherValue : Nat) : Int :=
  let comparison := int8OfInt ((parcAtomicUint8_GetValue instanceValue : Int) -
    (parcAtomicUint8_GetValue otherValue : Int))
  if comparison < 0 then -1
  else if comparison > 0 then 1
  else 0

/-- Embedding of `parcAtomicUint8_Equals`: true iff the two stored bytes are equal. -/
def parcAtomicUint8_Equals (x y : Nat) : Bool :=
  parcAtomicUint8_GetValue x == parcAtomicUint8_GetValue y

/-- C1: compareAndSwap on a scalar holding `X` with `expected = X` returns
true and leaves the scalar holding `Y`; on a scalar holding `Z ≠ X` the
same call returns false and leaves the scalar unchanged at `Z`.  Proved
for both the lock-free and the mutex-guarded backend (a single attempt,
no retry loop). -/
theorem parcAtomicUint8_compareAndSwap_spec (x y z : Nat) (hy : y < 256) :
    parcAtomicUint8_CompareAndSwapImpl x x y = (true, y) ∧
    (z ≠ x → parcAtomicUint8_CompareAndSwapImpl z x y = (false, z)) ∧
    parcAtomicUint8_CompareAndSwapImpl_fallback ⟨x, false⟩ x y = (true, ⟨y, false⟩) ∧
    (z ≠ x →
      parcAtomicUint8_CompareAndSwapImpl_fallback ⟨z, false⟩ x y = (false, ⟨z, false⟩)) := by
  refine ⟨?_, fun hz => ?_, ?_, fun hz => ?_⟩
  · simp [parcAtomicUint8_CompareAndSwapImpl, Nat.mod_eq_of_lt hy]
  · simp [parcAtomicUint8_CompareAndSwapImpl, hz]
  · simp [parcAtomicUint8_CompareAndSwapImpl_fallback, Nat.mod_eq_of_lt hy]
  · simp [parcAtomicUint8_CompareAndSwapImpl_fallback, hz]

/-- Witness for C1 at `X = 5`, `Y = 7`, `Z = 9`. -/
theorem parcAtomicUint8_compareAndSwap_spec_witness :
    7 < 256 ∧ (9 : Nat) ≠ 5 ∧
    parcAtomicUint8_CompareAndSwapImpl 5 5 7 = (true, 7) ∧
    parcAtomicUint8_CompareAndSwapImpl 9 5 7 = (false, 9) :=
  ⟨by decide, by decide, (parcAtomicUint8_compareAndSwap_spec 5 7 9 (by decide)).1,
    (parcAtomicUint8_compareAndSwap_spec 5 7 9 (by decide)).2.1 (by decide)⟩

/-- C2 (code bug): at the concrete pair of byte values `a = 128`, `b = 0`
the `uint8_t` difference `128` narrows to the `int8_t` value `-128`, so
`parcAtomicUint8_Compare` answers `-1` in BOTH argument orders, violating
`Compare(a,b) == -Compare(b,a)`. -/
theorem parcAtomicUint8_Compare_at_128_0 :
    parcAtomicUint8_Compare 128 0 = -1 ∧
    parcAtomicUint8_Compare 0 128 = -1 ∧
    parcAtomicUint8_Compare 128 0 ≠ -parcAtomicUint8_Compare 0 128 := by
  decide

/-- C4: applied sequentially to the same scalar state with the same
arguments, the mutex-guarded fallback backend and the lock-free backend of
every atomic-scalar operation (get, add, subtract, compareAndSwap) return
the same result and leave the scalar holding the same byte, with the mutex
released. -/
theorem parcAtomicUint8_backends_agree (v d s p n : Nat) :
    parcAtomicUint8_GetValue_fallback ⟨v, false⟩ = parcAtomicUint8_GetValue v ∧
    (parcAtomicUint8_AddImpl_fallback ⟨v, false⟩ d).1 = (parcAtomicUint8_AddImpl v d).1 ∧
    (parcAtomicUint8_AddImpl_fallback ⟨v, false⟩ d).2 =
      ⟨(parcAtomicUint8_AddImpl v d).2, false⟩ ∧
    (parcAtomicUint8_SubtractImpl_fallback ⟨v, false⟩ s).1 =
      (parcAtomicUint8_SubtractImpl v s).1 ∧
    (parcAtomicUint8_SubtractImpl_fallback ⟨v, false⟩ s).2 =
      ⟨(parcAtomicUint8_SubtractImpl v s).2, false⟩ ∧
    (parcAtomicUint8_CompareAndSwapImpl_fallback ⟨v, false⟩ p n).1 =
      (parcAtomicUint8_CompareAndSwapImpl v p n).1 ∧
    (parcAtomicUint8_CompareAndSwapImpl_fallback ⟨v, false⟩ p n).2 =
      ⟨(parcAtomicUint8_CompareAndSwapImpl v p n).2, false⟩ := by
  refine ⟨rfl, rfl, rfl, rfl, rfl, ?_, ?_⟩ <;>
    · simp only [parcAtomicUint8_CompareAndSwapImpl,
        parcAtomicUint8_CompareAndSwapImpl_fallback]
      split <;> rfl

/-- C5: `add` returns and stores `(v + d) mod 2^8`, `subtract` returns and
stores `(v - d) mod 2^8` (unsigned wraparound), and both are total: the
equations hold for all natural inputs with no error case. -/
theorem parcAtomicUint8_add_subtract_modular (v d : Nat) :
    (parcAtomicUint8_AddImpl v d).1 = (v + d) % 2 ^ 8 ∧
    (parcAtomicUint8_AddImpl v d).2 = (v + d) % 2 ^ 8 ∧
    ((parcAtomicUint8_SubtractImpl v d).1 : Int) = ((v : Int) - (d : Int)) % 2 ^ 8 ∧
    ((parcAtomicUint8_SubtractImpl v d).2 : Int) = ((v : Int) - (d : Int)) % 2 ^ 8 := by
  refine ⟨rfl, rfl, ?_, ?_⟩ <;>
    · simp only [parcAtomicUint8_SubtractImpl]
      omega

/-! ## parc_KeyValue.c

`struct parc_key_value` holds a key object (never NULL: enforced by
`assertNotNull` in `parcKeyValue_Create`) and a value object that may be
NULL.  The key and value are managed PARC objects whose equals, compare
and hashCode operations dispatch through their capability tables; those
per-type operations are abstracted as a record of functions. -/

/-- Capability-table operations of the key/value objects stored inside a
`PARCKeyValue`: `parcObject_Equals`, `parcObject_Compare` and
`parcObject_HashCode` dispatched on that object type. -/
structure PARCObjectOps (κ : Type) where
  equals : κ → κ → Bool
  compare : κ → κ → Int
  hashCode : κ → Nat

/-- Embedding of `struct parc_key_value`: a non-NULL key and a possibly NULL value. -/
structure PARCKeyValue (κ : Type) where
  key : κ
  value : Option κ

/-- Embedding of `parcKeyValue_Equals`: `result = parcObject_Equals(a->key, b->key)`;
then if either value pointer is NULL, `result &= (a->value == b->value)`
(true only when both are NULL), otherwise
`result &= parcObject_Equals(a->value, b->value)`. -/
def parcKeyValue_Equals {κ : Type} (ops : PARCObjectOps κ) (a b : PARCKeyValue κ) : Bool :=
  let result := ops.equals a.key b.key
  match a.value, b.value with
  | none, none => result && true
  | none, some _ => result && false
  | some _, none => result && false
  | some av, some bv => result && ops.equals av bv

/-- Embedding of `parcKeyValue_Compare`: NULL-against-NULL is `0`, a non-NULL first
argument against NULL is `1`, NULL against non-NULL is `-1`, and two
non-NULL pairs compare by `parcObject_Compare` on their keys. -/
def parcKeyValue_Compare {κ : Type} (ops : PARCObjectOps κ)
    (a b : Option (PARCKeyValue κ)) : Int :=
  match a, b with
  | none, none => 0
  | some _, none => 1
  | none, some _ => -1
  | some x, some y => ops.compare x.key y.key

/-- Embedding of `parcKeyValue_HashCode`: `return parcObject_HashCode(keyValue->key);`. -/
def parcKeyValue_HashCode {κ : Type} (ops : PARCObjectOps κ) (keyValue : PARCKeyValue κ) : Nat :=
  ops.hashCode keyValue.key

/-- Concrete capability table over `Bool` objects used to witness the
hash/equals contract: equality is boolean equality and the hash of an
object is `1` for `true`, `0` for `false`. -/
def boolOps : PARCObjectOps Bool where
  equals := fun x y => x == y
  compare := fun x y => if x == y then 0 else if x then 1 else -1
  hashCode := fun x => if x then 1 else 0

/-- C7: if the key objects of two `PARCKeyValue`s satisfy the standard
equals/hash contract, then `parcKeyValue_Equals a b = true` implies
`parcKeyValue_HashCode a = parcKeyValue_HashCode b`. -/
theorem parcKeyValue_equals_implies_hashCode {κ : Type} (ops : PARCObjectOps κ)
    (hcontract : ∀ x y : κ, ops.equals x y = true → ops.hashCode x = ops.hashCode y)
    (a b : PARCKeyValue κ) (heq : parcKeyValue_Equals ops a b = true) :
    parcKeyValue_HashCode ops a = parcKeyValue_HashCode ops b := by
  have hkeys : ops.equals a.key b.key = true := by
    unfold parcKeyValue_Equals at heq
    rcases ha : a.value with _ | av <;> rcases hb : b.value with _ | bv <;>
      simp [ha, hb, Bool.and_eq_true] at heq <;> tauto
  exact hcontract a.key b.key hkeys

/-- Witness for C7 over `Bool`-keyed pairs with the `boolOps` table. -/
theorem parcKeyValue_equals_implies_hashCode_witness :
    (∀ x y : Bool, boolOps.equals x y = true → boolOps.hashCode x = boolOps.hashCode y) ∧
    parcKeyValue_Equals boolOps ⟨true, some false⟩ ⟨true, some false⟩ = true ∧
    parcKeyValue_HashCode boolOps ⟨true, some false⟩ =
      parcKeyValue_HashCode boolOps ⟨true, some false⟩ :=
  ⟨by decide, by decide,
    parcKeyValue_equals_implies_hashCode boolOps (by decide) _ _ (by decide)⟩

/-- C8: for every non-NULL `PARCKeyValue` argument `a`,
`parcKeyValue_Compare(a, NULL) = 1`, `parcKeyValue_Compare(NULL, a) = -1`,
and `parcKeyValue_Compare(NULL, NULL) = 0`. -/
theorem parcKeyValue_Compare_null_cases {κ : Type} (ops : PARCObjectOps κ)
    (a : PARCKeyValue κ) :
    parcKeyValue_Compare ops (some a) none = 1 ∧
    parcKeyValue_Compare ops none (some a) = -1 ∧
    parcKeyValue_Compare ops none none = 0 :=
  ⟨rfl, rfl, rfl⟩

/-! ## parc_IdentityFile.c

`struct parc_identity_file` holds a file name and a password, both heap
C strings.  Pointers are modelled as `Option Nat` (NULL or a heap
address), and the heap as functions from addresses to the two string
fields, so that the `a == b` pointer-identity test of
`parcIdentityFile_Equals` is distinct from content equality. -/

/-- Heap of `struct parc_identity_file` instances: each address carries a
`fileName` and a `passWord` string. -/
structure IdentityFileHeap where
  fileName : Nat → String
  passWord : Nat → String

/-- Embedding of `parcIdentityFile_Equals`: `if (a == b) return true;` then
`if (a == NULL || b == NULL) return false;` then compare the two
`fileName` strings and the two `passWord` strings with `strcmp`,
returning false on the first mismatch and true otherwise. -/
def parcIdentityFile_Equals (h : IdentityFileHeap) (a b : Option Nat) : Bool :=
  if a = b then true
  else
    match a, b with
    | some x, some y =>
      if h.fileName x = h.fileName y then
        if h.passWord x = h.passWord y then true else false
      else false
    | _, _ => false

/-- C9: `parcIdentityFile_Equals` is reflexive, symmetric, and every
non-NULL instance is unequal to NULL. -/
theorem parcIdentityFile_Equals_laws (h : IdentityFileHeap) (a b : Option Nat) (n : Nat) :
    parcIdentityFile_Equals h a a = true ∧
    parcIdentityFile_Equals h a b = parcIdentityFile_Equals h b a ∧
    parcIdentityFile_Equals h (some n) none = false := by
  refine ⟨by simp [parcIdentityFile_Equals], ?_, by simp [parcIdentityFile_Equals]⟩
  by_cases hab : a = b
  · subst hab
    rfl
  · have hba : b ≠ a := fun q => hab q.symm
    rcases a with _ | x <;> rcases b with _ | y
    · exact absurd rfl hab
    · rfl
    · rfl
    · simp only [parcIdentityFile_Equals, if_neg hab, if_neg hba]
      by_cases hf : h.fileName x = h.fileName y
      · by_cases hp : h.passWord x = h.passWord y
        · simp [hf, hp]
        · simp [hf, hp, Ne.symm hp]
      · simp [hf, Ne.symm hf]

/-- C10: the identical-pointer check `if (a == b) return true;` precedes
the NULL checks, so `parcIdentityFile_Equals(NULL, NULL)` returns true. -/
theorem parcIdentityFile_Equals_null_null (h : IdentityFileHeap) :
    parcIdentityFile_Equals h none none = true :=
  rfl

/-! ## parc_IdentityFile.c / parc_Log.c — Create factories

Allocation through `parcObject_CreateInstance` may fail, returning NULL;
the flag `allocSucceeds` models the outcome of that allocation.  A factory
either returns a fully built object, returns NULL for the caller to
check, or aborts through a fatal trap (`trapOutOfMemory`) that never
returns to the caller. -/

/-- Outcome of a Create factory call: a built object, a NULL return value
the caller can check, or a fatal trap that terminates instead of
returning. -/
inductive CreateOutcome (α : Type) where
  | ok (result : α)
  | nullResult
  | fatalTrap (message : String)
  deriving DecidableEq

/-- Payload of `struct parc_identity_file`: the duplicated file name and
password strings. -/
structure PARCIdentityFileData where
  fileName : String
  passWord : String
  deriving DecidableEq

/-- Embedding of `parcIdentityFile_Create`: allocate the instance; only
`if (instance != NULL)` are the two strings duplicated into it; the
instance pointer (NULL on allocation failure) is returned as is. -/
def parcIdentityFile_Create (allocSucceeds : Bool) (fileName passWord : String) :
    CreateOutcome PARCIdentityFileData :=
  if allocSucceeds then CreateOutcome.ok ⟨fileName, passWord⟩
  else CreateOutcome.nullResult

/-- Fields of `struct PARCLog` set by `parcLog_Create` (the reporter and
level fields are elided; `messageId` starts at 0). -/
structure PARCLogData where
  hostName : String
  applicationName : String
  processId : String
  messageId : Nat
  deriving DecidableEq

/-- The `_nilvalue` string substituted for NULL name arguments. -/
def _nilvalue : String := "-"

/-- Embedding of `parcLog_Create`: substitute `_nilvalue` for each NULL name argument,
allocate the instance, and `if (result == NULL) trapOutOfMemory(...)` —
on allocation failure the factory aborts through the fatal trap instead
of returning; otherwise the fields are filled in and the instance
returned. -/
def parcLog_Create (allocSucceeds : Bool)
    (hostName applicationName processId : Option String) :
    CreateOutcome PARCLogData :=
  let applicationName := applicationName.getD _nilvalue
  let hostName := hostName.getD _nilvalue
  let processId := processId.getD _nilvalue
  if allocSucceeds then
    CreateOutcome.ok ⟨hostName, applicationName, processId, 0⟩
  else
    CreateOutcome.fatalTrap "Creating an instance of PARCLog."

/-- C6 counterexample: at the concrete input (allocation fails, all names
given), `parcLog_Create` aborts through `trapOutOfMemory` — a fatal trap,
not the NULL/error result the claim says the immediate caller can
check. -/
theorem parcLog_Create_allocFailure_traps :
    parcLog_Create false (some "host") (some "app") (some "42") =
      CreateOutcome.fatalTrap "Creating an instance of PARCLog." ∧
    parcLog_Create false (some "host") (some "app") (some "42") ≠
      CreateOutcome.nullResult :=
  ⟨rfl, fun q => nomatch q⟩

/-- C6 amended: on allocation failure `parcIdentityFile_Create` surfaces a
NULL result the caller can check, while `parcLog_Create` aborts through a
fatal out-of-memory trap; neither factory retries, and neither continues
with a partly built object (no `ok` result is ever produced from a failed
allocation). -/
theorem create_allocFailure_never_partial (fileName passWord : String)
    (hostName applicationName processId : Option String) :
    parcIdentityFile_Create false fileName passWord = CreateOutcome.nullResult ∧
    (∃ message, parcLog_Create false hostName applicationName processId =
      CreateOutcome.fatalTrap message) ∧
    (∀ obj, parcIdentityFile_Create false fileName passWord ≠ CreateOutcome.ok obj) ∧
    (∀ log, parcLog_Create false hostName applicationName processId ≠
      CreateOutcome.ok log) := by
  refine ⟨rfl, ⟨"Creating an instance of PARCLog.", rfl⟩, ?_, ?_⟩
  · intro obj
    simp [parcIdentityFile_Create]
  · intro log
    simp [parcLog_Create]

/-! ## parc_RingBuffer_NxM.c (modelled from the spec)

The implementation file `parc_RingBuffer_NxM.c` is not among the sources
(only its unit test is), so the bounded concurrent queue is modelled from
the specification, sections 3 and 4.3. -/

/-- Modelled from the spec: the implementation file `parc_RingBuffer_NxM.c`
is missing (only its unit test is present).  A ring buffer has a fixed
capacity `N`, an array of `N` slots each holding an empty marker or one
object reference, a head index modulo `N`, and a count of currently
queued items. -/
structure PARCRingBufferNxM (α : Type) where
  capacity : Nat
  slots : List (Option α)
  head : Nat
  count : Nat

/-- Modelled from the spec: `parcRingBufferNxM_Create(capacity, destroyer)`
requires capacity ≥ 1 (`none` models the InvalidArgument failure) and
starts with every slot empty and `head = count = 0`. -/
def parcRingBufferNxM_Create (α : Type) (capacity : Nat) :
    Option (PARCRingBufferNxM α) :=
  if 1 ≤ capacity then
    some ⟨capacity, List.replicate capacity none, 0, 0⟩
  else none

/-- Modelled from the spec: `parcRingBufferNxM_Put` — while the buffer is
not full, reserve the tail slot `(head + count) mod capacity`, store the
item there, and increment `count`; on a full buffer the caller blocks
(`none` in this sequential model — never reached in the drain scenario,
which enqueues at most `capacity` items). -/
def parcRingBufferNxM_Put {α : Type} (ring : PARCRingBufferNxM α) (item : α) :
    Option (PARCRingBufferNxM α) :=
  if ring.count < ring.capacity then
    some { ring with
      slots := ring.slots.set ((ring.head + ring.count) % ring.capacity) (some item)
      count := ring.count + 1 }
  else none

/-- Sequential enqueue of a list of items, one `Put` per item. -/
def putSequence {α : Type} (ring : Option (PARCRingBufferNxM α)) (items : List α) :
    Option (PARCRingBufferNxM α) :=
  items.foldl (fun acc item => acc.bind (fun r => parcRingBufferNxM_Put r item)) ring

/-- Modelled from the spec: on `parcRingBufferNxM_Release` the queue
transitions to Draining and the destroyer callback is invoked on every
slot still marked Filled, in queue (head-to-tail) order; the result is
the sequence of destroyer invocations, after which the storage is
freed. -/
def drainCalls {α : Type} (ring : PARCRingBufferNxM α) : List α :=
  (List.range ring.count).filterMap
    (fun i => ring.slots.getD ((ring.head + i) % ring.capacity) none)

/-- Modelled from the spec: reference-counted allocations left outstanding
after the drain — each enqueued item is one allocation owned by the
queue, and each destroyer invocation releases one of them. -/
def outstandingAfterRelease (enqueued destroyerCalls : Nat) : Nat :=
  enqueued - destroyerCalls

theorem filterMap_range_congr {β : Type} (n : Nat) (f g : Nat → Option β)
    (h : ∀ i, i < n → f i = g i) :
    (List.range n).filterMap f = (List.range n).filterMap g := by
  induction n with
  | zero => rfl
  | succ n ih =>
      rw [List.range_succ, List.filterMap_append, List.filterMap_append,
        ih (fun i hi => h i (Nat.lt_succ_of_lt hi)),
        List.filterMap_cons, List.filterMap_cons, h n (Nat.lt_succ_self n)]
      simp only [List.filterMap_nil]

theorem filterMap_range_getD_fill {α : Type} (xs : List α) (rest : List (Option α)) :
    (List.range xs.length).filterMap (fun i => (xs.map some ++ rest).getD i none) = xs := by
  induction xs generalizing rest with
  | nil => rfl
  | cons x xs ih =>
      rw [List.length_cons, List.range_succ_eq_map]
      simp only [List.map_cons, List.cons_append, List.filterMap_cons, List.getD_cons_zero,
        List.filterMap_map, Function.comp_def, Nat.succ_eq_add_one, List.getD_cons_succ]
      rw [ih rest]

theorem putSequence_fill {α : Type} (xs : List α) (prev : List α) (cap : Nat)
    (hlen : prev.length + xs.length ≤ cap) :
    putSequence
      (some ⟨cap, prev.map some ++ List.replicate (cap - prev.length) none, 0, prev.length⟩)
      xs =
    some ⟨cap, (prev ++ xs).map some ++ List.replicate (cap - (prev.length + xs.length)) none,
      0, prev.length + xs.length⟩ := by
  induction xs generalizing prev with
  | nil => simp [putSequence]
  | cons x xs ih =>
      have hplt : prev.length < cap := by
        simp only [List.length_cons] at hlen
        omega
      have hstep :
          parcRingBufferNxM_Put
            (⟨cap, prev.map some ++ List.replicate (cap - prev.length) none, 0, prev.length⟩ :
              PARCRingBufferNxM α) x =
          some ⟨cap, (prev ++ [x]).map some ++
            List.replicate (cap - (prev.length + 1)) none, 0, prev.length + 1⟩ := by
        simp only [parcRingBufferNxM_Put, if_pos hplt, Nat.zero_add,
          Nat.mod_eq_of_lt hplt]
        have hrep : List.replicate (cap - prev.length) (none : Option α) =
            none :: List.replicate (cap - (prev.length + 1)) none := by
          have : cap - prev.length = (cap - (prev.length + 1)) + 1 := by omega
          rw [this, List.replicate_succ]
        rw [List.set_append_right _ _ (by simp)]
        simp [hrep]
      have hfold : putSequence
          (some (⟨cap, prev.map some ++ List.replicate (cap - prev.length) none, 0,
            prev.length⟩ : PARCRingBufferNxM α)) (x :: xs) =
          putSequence
            (some ⟨cap, (prev ++ [x]).map some ++
              List.replicate (cap - (prev.length + 1)) none, 0, prev.length + 1⟩) xs := by
        simp only [putSequence, List.foldl_cons, Option.some_bind]
        rw [hstep]
      rw [hfold]
      have hlen2 : (prev ++ [x]).length + xs.length ≤ cap := by
        simp only [List.length_append, List.length_cons, List.length_nil] at hlen ⊢
        omega
      have hih := ih (prev ++ [x]) hlen2
      simp only [List.length_append, List.length_cons, List.length_nil, Nat.zero_add] at hih
      rw [hih]
      have hl : (prev ++ [x]) ++ xs = prev ++ x :: xs := by simp
      rw [hl]
      have hc : prev.length + 1 + xs.length = prev.length + (x :: xs).length := by
        simp only [List.length_cons]
        omega
      rw [hc]

/-- C3 (modelled from the spec): for every queue of capacity ≥ 1, after
enqueuing `M ≤ capacity` items via Put and then destroying the queue
without any Get, the destroyer callback is invoked exactly `M` times,
once with each previously enqueued item, in queue (head-to-tail) order,
and no reference-counted allocations remain outstanding afterwards. -/
theorem parcRingBufferNxM_release_drains {α : Type} (capacity : Nat) (items : List α)
    (hcap : 1 ≤ capacity) (hlen : items.length ≤ capacity) :
    ∃ ring : PARCRingBufferNxM α,
      putSequence (parcRingBufferNxM_Create α capacity) items = some ring ∧
      drainCalls ring = items ∧
      (drainCalls ring).length = items.length ∧
      outstandingAfterRelease items.length (drainCalls ring).length = 0 := by
  have hcreate : parcRingBufferNxM_Create α capacity =
      some ⟨capacity, List.replicate capacity none, 0, 0⟩ := by
    simp [parcRingBufferNxM_Create, hcap]
  have hfill := putSequence_fill items [] capacity (by simpa using hlen)
  simp only [List.length_nil, Nat.zero_add, List.map_nil, List.nil_append,
    Nat.sub_zero] at hfill
  have hdrain : drainCalls (⟨capacity,
      items.map some ++ List.replicate (capacity - items.length) none, 0,
      items.length⟩ : PARCRingBufferNxM α) = items := by
    simp only [drainCalls]
    have hcongr := filterMap_range_congr items.length
      (fun i => (items.map some ++
        List.replicate (capacity - items.length) (none : Option α)).getD
          ((0 + i) % capacity) none)
      (fun i => (items.map some ++
        List.replicate (capacity - items.length) (none : Option α)).getD i none)
      (fun i hi => by
        simp [Nat.mod_eq_of_lt (Nat.lt_of_lt_of_le hi hlen)])
    rw [hcongr, filterMap_range_getD_fill]
  refine ⟨⟨capacity, items.map some ++ List.replicate (capacity - items.length) none, 0,
    items.length⟩, ?_, hdrain, ?_, ?_⟩
  · rw [hcreate, hfill]
  · rw [hdrain]
  · rw [hdrain]
    simp [outstandingAfterRelease]

/-- Witness for C3 at capacity 3 with the three items `[10, 20, 30]`. -/
theorem parcRingBufferNxM_release_drains_witness :
    1 ≤ 3 ∧ ([10, 20, 30] : List Nat).length ≤ 3 ∧
    (∃ ring : PARCRingBufferNxM Nat,
      putSequence (parcRingBufferNxM_Create Nat 3) [10, 20, 30] = some ring ∧
      drainCalls ring = [10, 20, 30] ∧
      (drainCalls ring).length = ([10, 20, 30] : List Nat).length ∧
      outstandingAfterRelease ([10, 20, 30] : List Nat).length
        (drainCalls ring).length = 0) :=
  ⟨by decide, by decide,
    parcRingBufferNxM_release_drains 3 [10, 20, 30] (by decide) (by decide)⟩

end Libparc
